import Mathlib

/-!
Verification of the fade animation engine of
`src/mods/transparent-while-moving.wh.cpp`.

The embedding models the hook-independent core: the per-window animation
record table `g_anim`, the helpers `SetLayered`, `ApplyAlphaRemember` and
`ClampByte`, the tick callback `FadeTickCb`, `StopFade`, `StartFade`, and
the `WM_DESTROY`/`WM_NCDESTROY` branch of `DefWindowProcW_Hook`.

Modelling conventions:
- `HWND` is `Nat`; the windowing system's per-window observable state
  (layered extended-style bit, last alpha written by
  `SetLayeredWindowAttributes`, liveness as reported by `IsWindow`) is kept
  as fields of the global state `Sys`.
- `GetTickCount64` is passed in as a `now : Nat` parameter; the `ULONGLONG`
  subtraction `now - startTick` is modelled on `Nat`, which agrees with the
  64-bit unsigned subtraction whenever `startTick ≤ now` (the clock is
  monotone; 64-bit wraparound is out of range of any real execution).
- The thread-pool timer queue is modelled as the list `timers` of live
  recurring timers `(handle, context hwnd)` plus a fresh-handle counter.
  `CreateTimerQueueTimer` success is an explicit `timerOk` parameter of
  `StartFade`; the C++ code ignores that call's return value.
- `double` arithmetic in `FadeTickCb` is idealized as exact rational
  arithmetic (`ℚ`); the C cast `(int)` truncates toward zero (`cTrunc`).
-/

namespace TWM

/-- Window handles (`HWND`), modelled as naturals. -/
abbrev HWND := Nat

/-- The per-window animation record `struct WinAnim`, with the C++ default
member values. `durationMs` is a C `int`, hence `Int`; the `BYTE` fields are
naturals (all writes in the source are in `0..255`). -/
structure WinAnim where
  active : Bool := false
  startAlpha : Nat := 255
  targetAlpha : Nat := 255
  startTick : Nat := 0
  durationMs : Int := 0
  lastApplied : Nat := 255
  hTimer : Option Nat := none
deriving Repr, DecidableEq

/-- Global state: the record table `g_anim` (`anim`), the window system's
per-window layered style bit and applied alpha, window liveness (`IsWindow`),
and the live timer-queue timers with a fresh-handle counter. -/
structure Sys where
  anim : HWND → Option WinAnim
  layered : HWND → Bool
  alphaW : HWND → Nat
  alive : HWND → Bool
  timers : List (Nat × HWND)
  nextHandle : Nat

/-- Update the record table at one window. -/
def setAnim (s : Sys) (hwnd : HWND) (r : Option WinAnim) : Sys :=
  { s with anim := fun h' => if h' = hwnd then r else s.anim h' }

/-- `SetLayered(hwnd, on)`: reads `GWL_EXSTYLE` and sets/clears
`WS_EX_LAYERED`; the net observable effect is that the bit equals `on`. -/
def SetLayered (s : Sys) (hwnd : HWND) (onb : Bool) : Sys :=
  { s with layered := fun h' => if h' = hwnd then onb else s.layered h' }

/-- `ApplyAlphaRemember(hwnd, a)`: force the layered bit on, write alpha `a`
via `SetLayeredWindowAttributes`, and record it in `g_anim[hwnd].lastApplied`
(`operator[]` default-constructs the record if absent). -/
def ApplyAlphaRemember (s : Sys) (hwnd : HWND) (a : Nat) : Sys :=
  let s1 := SetLayered s hwnd true
  let s2 := { s1 with alphaW := fun h' => if h' = hwnd then a else s1.alphaW h' }
  setAnim s2 hwnd (some { ((s2.anim hwnd).getD {}) with lastApplied := a })

/-- `ClampByte(v)`: `(BYTE)std::min(255, std::max(0, v))`. -/
def ClampByte (v : Int) : Nat := (min 255 (max 0 v)).toNat

/-- The C cast `(int)x` on a `double`: truncation toward zero. -/
def cTrunc (x : ℚ) : Int := if 0 ≤ x then ⌊x⌋ else ⌈x⌉

/-- `if (h) DeleteTimerQueueTimer(g_timerQueue, h, INVALID_HANDLE_VALUE)`:
remove the timer named by the (nullable) handle from the live-timer list. -/
def cancelTimer (ts : List (Nat × HWND)) (h : Option Nat) : List (Nat × HWND) :=
  match h with
  | none => ts
  | some n => ts.filter (fun p => decide (p.1 ≠ n))

/-- The elapsed fraction computed by `FadeTickCb`:
`t = (durationMs > 0) ? min(1.0, (now - startTick) / durationMs) : 1.0`. -/
def tickFraction (startTick : Nat) (durationMs : Int) (now : Nat) : ℚ :=
  if 0 < durationMs
  then min 1 (((now - startTick : Nat) : ℚ) / (durationMs : ℚ))
  else 1

/-- The alpha byte computed by one tick:
`v = (1-t)*startAlpha + t*targetAlpha; a = ClampByte((int)(v + 0.5))`. -/
def tickAlpha (st : WinAnim) (now : Nat) : Nat :=
  let t := tickFraction st.startTick st.durationMs now
  let v : ℚ := (1 - t) * (st.startAlpha : ℚ) + t * (st.targetAlpha : ℚ)
  ClampByte (cTrunc (v + 1/2))

/-- `FadeTickCb(ctx, fired)`: the thread-pool timer callback, advancing one
animation step for window `ctx` at wall-clock time `now`. -/
def FadeTickCb (s : Sys) (ctx : HWND) (now : Nat) : Sys :=
  if s.alive ctx = false then s else
  match s.anim ctx with
  | none => s
  | some st =>
    if st.active = false then s else
    let t := tickFraction st.startTick st.durationMs now
    let a := tickAlpha st now
    let s1 := ApplyAlphaRemember s ctx a
    if 1 ≤ t then
      -- completion: cancel own timer, mark inactive
      let st1 := (s1.anim ctx).getD {}
      let s2 := setAnim s1 ctx (some { st1 with hTimer := none, active := false })
      let s3 := { s2 with timers := cancelTimer s2.timers st1.hTimer }
      if st1.targetAlpha = 255 then
        let s4 := SetLayered s3 ctx false
        setAnim s4 ctx (some { ((s4.anim ctx).getD {}) with lastApplied := 255 })
      else s3
    else s1

/-- `StopFade(hwnd, forceToTarget)`. -/
def StopFade (s : Sys) (hwnd : HWND) (forceToTarget : Bool) : Sys :=
  match s.anim hwnd with
  | none => s
  | some st =>
    let s1 := setAnim s hwnd (some { st with hTimer := none, active := false })
    let s2 := { s1 with timers := cancelTimer s1.timers st.hTimer }
    let s3 := if forceToTarget then ApplyAlphaRemember s2 hwnd st.targetAlpha else s2
    if st.targetAlpha = 255 then
      let s4 := SetLayered s3 hwnd false
      setAnim s4 hwnd (some { ((s4.anim hwnd).getD {}) with lastApplied := 255 })
    else s3

/-- `StartFade(hwnd, targetAlpha, durMs)` at wall-clock time `now`.
`timerOk` is whether `CreateTimerQueueTimer` succeeds (the source does not
check its return value). -/
def StartFade (s : Sys) (hwnd : HWND) (targetAlpha : Nat) (durMs : Int)
    (now : Nat) (timerOk : Bool) : Sys :=
  let st0 := (s.anim hwnd).getD {}          -- WinAnim& st = g_anim[hwnd]
  let s0 := setAnim s hwnd (some st0)
  let s1 := { s0 with timers := cancelTimer s0.timers st0.hTimer }
  let st1 : WinAnim :=
    { st0 with
      hTimer := none,
      startAlpha := st0.lastApplied,
      targetAlpha := targetAlpha,
      startTick := now,
      durationMs := max 0 durMs,
      active := true }
  let s2 := setAnim s1 hwnd (some st1)
  if st1.durationMs = 0 ∨ st1.startAlpha = st1.targetAlpha then
    let s3 := ApplyAlphaRemember s2 hwnd st1.targetAlpha
    let s4 := setAnim s3 hwnd (some { ((s3.anim hwnd).getD {}) with active := false })
    if st1.targetAlpha = 255 then
      let s5 := SetLayered s4 hwnd false
      setAnim s5 hwnd (some { ((s5.anim hwnd).getD {}) with lastApplied := 255 })
    else s4
  else
    let s5 := SetLayered s2 hwnd true
    if timerOk then
      { setAnim s5 hwnd (some { st1 with hTimer := some s5.nextHandle }) with
        timers := (s5.nextHandle, hwnd) :: s5.timers,
        nextHandle := s5.nextHandle + 1 }
    else s5

/-- The `WM_DESTROY`/`WM_NCDESTROY` branch of `DefWindowProcW_Hook`
(`root` is already the `GA_ROOT` ancestor): `StopFade(root, false)`, then the
fail-safe `ApplyAlphaRemember(root, 255)`, `SetLayered(root, false)`, and
`g_anim.erase(root)`. -/
def WindowDestroyed (s : Sys) (root : HWND) : Sys :=
  let s1 := StopFade s root false
  let s2 := ApplyAlphaRemember s1 root 255
  let s3 := SetLayered s2 root false
  { s3 with anim := fun h' => if h' = root then none else s3.anim h' }

/-- The record currently stored for a window (the C++ default record when
absent). -/
def animRec (s : Sys) (hwnd : HWND) : WinAnim := (s.anim hwnd).getD {}

-- Projection lemmas used throughout.

@[simp] lemma setAnim_anim (s : Sys) (hwnd h' : HWND) (r : Option WinAnim) :
    (setAnim s hwnd r).anim h' = if h' = hwnd then r else s.anim h' := rfl

@[simp] lemma setAnim_layered (s : Sys) (hwnd : HWND) (r : Option WinAnim) :
    (setAnim s hwnd r).layered = s.layered := rfl

@[simp] lemma setAnim_alphaW (s : Sys) (hwnd : HWND) (r : Option WinAnim) :
    (setAnim s hwnd r).alphaW = s.alphaW := rfl

@[simp] lemma setAnim_alive (s : Sys) (hwnd : HWND) (r : Option WinAnim) :
    (setAnim s hwnd r).alive = s.alive := rfl

@[simp] lemma setAnim_timers (s : Sys) (hwnd : HWND) (r : Option WinAnim) :
    (setAnim s hwnd r).timers = s.timers := rfl

@[simp] lemma setAnim_nextHandle (s : Sys) (hwnd : HWND) (r : Option WinAnim) :
    (setAnim s hwnd r).nextHandle = s.nextHandle := rfl

@[simp] lemma SetLayered_layered (s : Sys) (hwnd h' : HWND) (b : Bool) :
    (SetLayered s hwnd b).layered h' = if h' = hwnd then b else s.layered h' := rfl

@[simp] lemma SetLayered_anim (s : Sys) (hwnd : HWND) (b : Bool) :
    (SetLayered s hwnd b).anim = s.anim := rfl

@[simp] lemma SetLayered_alphaW (s : Sys) (hwnd : HWND) (b : Bool) :
    (SetLayered s hwnd b).alphaW = s.alphaW := rfl

@[simp] lemma SetLayered_alive (s : Sys) (hwnd : HWND) (b : Bool) :
    (SetLayered s hwnd b).alive = s.alive := rfl

@[simp] lemma SetLayered_timers (s : Sys) (hwnd : HWND) (b : Bool) :
    (SetLayered s hwnd b).timers = s.timers := rfl

@[simp] lemma SetLayered_nextHandle (s : Sys) (hwnd : HWND) (b : Bool) :
    (SetLayered s hwnd b).nextHandle = s.nextHandle := rfl

@[simp] lemma ApplyAlphaRemember_anim (s : Sys) (hwnd h' : HWND) (a : Nat) :
    (ApplyAlphaRemember s hwnd a).anim h' =
      if h' = hwnd then some { ((s.anim hwnd).getD {}) with lastApplied := a }
      else s.anim h' := rfl

@[simp] lemma ApplyAlphaRemember_alphaW (s : Sys) (hwnd h' : HWND) (a : Nat) :
    (ApplyAlphaRemember s hwnd a).alphaW h' =
      if h' = hwnd then a else s.alphaW h' := rfl

@[simp] lemma ApplyAlphaRemember_layered (s : Sys) (hwnd h' : HWND) (a : Nat) :
    (ApplyAlphaRemember s hwnd a).layered h' =
      if h' = hwnd then true else s.layered h' := rfl

@[simp] lemma ApplyAlphaRemember_alive (s : Sys) (hwnd : HWND) (a : Nat) :
    (ApplyAlphaRemember s hwnd a).alive = s.alive := rfl

@[simp] lemma ApplyAlphaRemember_timers (s : Sys) (hwnd : HWND) (a : Nat) :
    (ApplyAlphaRemember s hwnd a).timers = s.timers := rfl

@[simp] lemma ApplyAlphaRemember_nextHandle (s : Sys) (hwnd : HWND) (a : Nat) :
    (ApplyAlphaRemember s hwnd a).nextHandle = s.nextHandle := rfl

/-- Claim C1: for every window and every prior animation state, handling a
window-destroyed event ends with opacity 255 applied to the window, the
translucency (layered) style bit cleared, and the window's animation record
erased from the table. -/
theorem claim_C1 (s : Sys) (root : HWND) :
    (WindowDestroyed s root).alphaW root = 255 ∧
    (WindowDestroyed s root).layered root = false ∧
    (WindowDestroyed s root).anim root = none := by
  refine ⟨?_, ?_, ?_⟩ <;> simp [WindowDestroyed]

/-- A tick whose guards fail (dead window, missing record, inactive record)
returns the state unchanged. -/
lemma fadeTick_noop (s : Sys) (hwnd : HWND) (now : Nat)
    (h : s.alive hwnd = false ∨ s.anim hwnd = none ∨
         ∃ st, s.anim hwnd = some st ∧ st.active = false) :
    FadeTickCb s hwnd now = s := by
  by_cases ha : s.alive hwnd = false
  · simp [FadeTickCb, ha]
  · rcases h with h | h | ⟨st, hst, hact⟩
    · exact absurd h ha
    · simp [FadeTickCb, ha, h]
    · simp [FadeTickCb, ha, hst, hact]

/-- Claim C2: a tick whose window no longer exists, or whose record is
missing from the table, or whose record is inactive, leaves the entire state
unchanged (a ghost tick is a safe no-op). -/
theorem claim_C2 (s : Sys) (hwnd : HWND) (now : Nat)
    (h : s.alive hwnd = false ∨ s.anim hwnd = none ∨
         ∃ st, s.anim hwnd = some st ∧ st.active = false) :
    FadeTickCb s hwnd now = s :=
  fadeTick_noop s hwnd now h

/-- Witness for C2 at a concrete state: a dead window, a window with no
record, and a window with an inactive record all leave the state unchanged. -/
theorem claim_C2_witness :
    (let s : Sys :=
      { anim := fun h => if h = 2 then some { active := false } else none,
        layered := fun _ => false, alphaW := fun _ => 255,
        alive := fun h => decide (h ≠ 1), timers := [], nextHandle := 0 };
     FadeTickCb s 1 100 = s ∧ FadeTickCb s 3 100 = s ∧ FadeTickCb s 2 100 = s) := by
  refine ⟨?_, ?_, ?_⟩
  · exact claim_C2 _ 1 100 (Or.inl (by decide))
  · exact claim_C2 _ 3 100 (Or.inr (Or.inl (by simp)))
  · exact claim_C2 _ 2 100 (Or.inr (Or.inr ⟨{ active := false }, by simp, rfl⟩))

/-- Membership in the live-timer list survives `cancelTimer` in the reverse
direction: cancellation only removes timers, never adds any. -/
lemma mem_of_mem_cancelTimer {ts : List (Nat × HWND)} {h : Option Nat}
    {p : Nat × HWND} (hp : p ∈ cancelTimer ts h) : p ∈ ts := by
  cases h with
  | none => exact hp
  | some n => exact (List.mem_filter.mp hp).1

/-- Claim C3: when a record already exists, `StartFade` begins the new fade
from the record's `lastApplied` opacity (the value last physically written),
whatever the previous fade's endpoints were. -/
theorem claim_C3 (s : Sys) (hwnd : HWND) (st : WinAnim) (tgt : Nat) (d : Int)
    (now : Nat) (ok : Bool) (h : s.anim hwnd = some st) :
    (animRec (StartFade s hwnd tgt d now ok) hwnd).startAlpha = st.lastApplied := by
  simp only [StartFade, animRec, h, Option.getD_some]
  split_ifs <;> simp

/-- Claim C4: with zero requested duration, or when the start opacity (the
record's `lastApplied`) already equals the target, `StartFade` applies the
target opacity immediately, marks the record inactive, schedules no tick,
and clears the layered bit when the target is 255. -/
theorem claim_C4 (s : Sys) (hwnd : HWND) (tgt : Nat) (d : Int) (now : Nat)
    (ok : Bool) (h : d = 0 ∨ (animRec s hwnd).lastApplied = tgt) :
    (StartFade s hwnd tgt d now ok).alphaW hwnd = tgt ∧
    (animRec (StartFade s hwnd tgt d now ok) hwnd).active = false ∧
    (StartFade s hwnd tgt d now ok).nextHandle = s.nextHandle ∧
    (∀ p ∈ (StartFade s hwnd tgt d now ok).timers, p ∈ s.timers) ∧
    (tgt = 255 → (StartFade s hwnd tgt d now ok).layered hwnd = false) := by
  have hcond : (max 0 d = 0) ∨ ((s.anim hwnd).getD {}).lastApplied = tgt := by
    rcases h with h | h
    · exact Or.inl (by simp [h])
    · exact Or.inr h
  simp only [StartFade]
  split_ifs with h255
  · refine ⟨by simp, by simp [animRec], by simp, ?_, fun _ => by simp⟩
    intro p hp
    exact mem_of_mem_cancelTimer (by simpa using hp)
  · refine ⟨by simp, by simp [animRec], by simp, ?_, fun h2 => absurd h2 h255⟩
    intro p hp
    exact mem_of_mem_cancelTimer (by simpa using hp)

/-- Witness for C4: a zero-duration `StartFade(hwnd, 120, 0)` on a fresh
state applies 120 synchronously with nothing scheduled. -/
theorem claim_C4_witness :
    (let s : Sys :=
      { anim := fun _ => none, layered := fun _ => false,
        alphaW := fun _ => 255, alive := fun _ => true,
        timers := [], nextHandle := 0 };
     (StartFade s 1 120 0 50 true).alphaW 1 = 120 ∧
     (animRec (StartFade s 1 120 0 50 true) 1).active = false ∧
     (StartFade s 1 120 0 50 true).nextHandle = s.nextHandle ∧
     (∀ p ∈ (StartFade s 1 120 0 50 true).timers, p ∈ s.timers) ∧
     (120 = 255 → (StartFade s 1 120 0 50 true).layered 1 = false)) :=
  claim_C4 _ 1 120 0 50 true (Or.inl rfl)

/-- Claim C10: the first `StartFade` for an untracked window default-creates
its record, so the first fade starts from full opacity: the created record's
`lastApplied` default is 255 and the fade's `startAlpha` is 255. -/
theorem claim_C10 (s : Sys) (hwnd : HWND) (tgt : Nat) (d : Int) (now : Nat)
    (ok : Bool) (h : s.anim hwnd = none) :
    ((StartFade s hwnd tgt d now ok).anim hwnd).isSome = true ∧
    (animRec (StartFade s hwnd tgt d now ok) hwnd).startAlpha = 255 ∧
    ({} : WinAnim).lastApplied = 255 := by
  refine ⟨?_, ?_, rfl⟩
  · simp only [StartFade, h]
    split_ifs <;> simp
  · simp only [StartFade, animRec, h]
    split_ifs <;> simp

/-- Witness for C10: concrete first fade on an empty table. -/
theorem claim_C10_witness :
    (let s : Sys :=
      { anim := fun _ => none, layered := fun _ => false,
        alphaW := fun _ => 255, alive := fun _ => true,
        timers := [], nextHandle := 0 };
     ((StartFade s 1 180 120 7 true).anim 1).isSome = true ∧
     (animRec (StartFade s 1 180 120 7 true) 1).startAlpha = 255 ∧
     ({} : WinAnim).lastApplied = 255) :=
  claim_C10 _ 1 180 120 7 true rfl

/-- The opacity the spec prescribes for one tick, written from the spec's
words: elapsed fraction `t = min(1, (now − startTime) / durationMs)`
(`t = 1` when `durationMs == 0`), then
`value = (1−t)·startOpacity + t·targetOpacity`, rounded to the nearest
integer and clamped to `[0,255]`. -/
def specTickOpacity (startO targetO startT : Nat) (durMs : Int) (now : Nat) : Nat :=
  let t : ℚ := if durMs > 0 then min 1 (((now - startT : Nat) : ℚ) / (durMs : ℚ)) else 1
  let value : ℚ := (1 - t) * (startO : ℚ) + t * (targetO : ℚ)
  let r : Int := ⌊value + 1/2⌋
  if r ≤ 0 then 0 else if 255 ≤ r then 255 else r.toNat

lemma tickFraction_nonneg (a : Nat) (dm : Int) (now : Nat) :
    0 ≤ tickFraction a dm now := by
  unfold tickFraction
  split_ifs with h
  · refine le_min (by norm_num) (div_nonneg (by positivity) ?_)
    exact_mod_cast le_of_lt h
  · norm_num

lemma tickFraction_le_one (a : Nat) (dm : Int) (now : Nat) :
    tickFraction a dm now ≤ 1 := by
  unfold tickFraction
  split_ifs with h
  · exact min_le_left _ _
  · exact le_refl 1

lemma lerp_nonneg {t : ℚ} (h0 : 0 ≤ t) (h1 : t ≤ 1) (a b : Nat) :
    0 ≤ (1 - t) * (a : ℚ) + t * (b : ℚ) :=
  add_nonneg (mul_nonneg (by linarith) (Nat.cast_nonneg a))
    (mul_nonneg h0 (Nat.cast_nonneg b))

lemma ClampByte_eq_clamp (r : Int) :
    ClampByte r = if r ≤ 0 then 0 else if 255 ≤ r then 255 else r.toNat := by
  unfold ClampByte
  split_ifs <;> omega

/-- The byte computed by the tick's `double` arithmetic agrees with the
spec's round-to-nearest clamped interpolation. -/
lemma tickAlpha_eq_spec (st : WinAnim) (now : Nat) :
    tickAlpha st now
      = specTickOpacity st.startAlpha st.targetAlpha st.startTick st.durationMs now := by
  have h0 := tickFraction_nonneg st.startTick st.durationMs now
  have h1 := tickFraction_le_one st.startTick st.durationMs now
  have hv : (0 : ℚ) ≤ (1 - tickFraction st.startTick st.durationMs now) * (st.startAlpha : ℚ)
      + tickFraction st.startTick st.durationMs now * (st.targetAlpha : ℚ) :=
    lerp_nonneg h0 h1 _ _
  show ClampByte (cTrunc ((1 - tickFraction st.startTick st.durationMs now) * (st.startAlpha : ℚ)
      + tickFraction st.startTick st.durationMs now * (st.targetAlpha : ℚ) + 1/2))
    = (if ⌊(1 - tickFraction st.startTick st.durationMs now) * (st.startAlpha : ℚ)
          + tickFraction st.startTick st.durationMs now * (st.targetAlpha : ℚ) + 1/2⌋ ≤ 0
       then 0
       else if 255 ≤ ⌊(1 - tickFraction st.startTick st.durationMs now) * (st.startAlpha : ℚ)
          + tickFraction st.startTick st.durationMs now * (st.targetAlpha : ℚ) + 1/2⌋
       then 255
       else (⌊(1 - tickFraction st.startTick st.durationMs now) * (st.startAlpha : ℚ)
          + tickFraction st.startTick st.durationMs now * (st.targetAlpha : ℚ) + 1/2⌋).toNat)
  rw [show cTrunc ((1 - tickFraction st.startTick st.durationMs now) * (st.startAlpha : ℚ)
      + tickFraction st.startTick st.durationMs now * (st.targetAlpha : ℚ) + 1/2)
      = ⌊(1 - tickFraction st.startTick st.durationMs now) * (st.startAlpha : ℚ)
      + tickFraction st.startTick st.durationMs now * (st.targetAlpha : ℚ) + 1/2⌋
    from if_pos (by linarith)]
  exact ClampByte_eq_clamp _

/-- A tick on a live window with an active record writes exactly
`tickAlpha st now` as the window's alpha. -/
lemma fadeTick_alphaW (s : Sys) (hwnd : HWND) (st : WinAnim) (now : Nat)
    (halive : s.alive hwnd = true) (hrec : s.anim hwnd = some st)
    (hact : st.active = true) :
    (FadeTickCb s hwnd now).alphaW hwnd = tickAlpha st now := by
  simp only [FadeTickCb, halive, hrec, hact]
  norm_num
  split_ifs <;> simp

/-- Claim C5: a tick on a live window with an active record applies exactly
the spec's linearly interpolated, round-to-nearest, clamped opacity; with
`durationMs = 0` the fraction is 1 and the applied opacity is the target. -/
theorem claim_C5 (s : Sys) (hwnd : HWND) (st : WinAnim) (now : Nat)
    (halive : s.alive hwnd = true) (hrec : s.anim hwnd = some st)
    (hact : st.active = true) (htgt : st.targetAlpha ≤ 255) :
    (FadeTickCb s hwnd now).alphaW hwnd
      = specTickOpacity st.startAlpha st.targetAlpha st.startTick st.durationMs now ∧
    (st.durationMs = 0 → (FadeTickCb s hwnd now).alphaW hwnd = st.targetAlpha) := by
  have happ := fadeTick_alphaW s hwnd st now halive hrec hact
  have hmain := happ.trans (tickAlpha_eq_spec st now)
  refine ⟨hmain, fun hdur => ?_⟩
  rw [happ]
  unfold tickAlpha tickFraction
  rw [hdur]
  norm_num [ClampByte_eq_clamp]
  rw [show cTrunc ((st.targetAlpha : ℚ) + 1/2) = ⌊(st.targetAlpha : ℚ) + 1/2⌋
    from if_pos (by positivity)]
  rw [show ⌊(st.targetAlpha : ℚ) + 1/2⌋ = (st.targetAlpha : Int) from by
    rw [Int.floor_eq_iff]
    constructor
    · push_cast
      linarith
    · push_cast
      linarith]
  split_ifs <;> omega

/-- Witness for C3: the spec's reversal scenario — mid-fade 255→120 the last
applied value is 188 (the 50 ms tick of a 100 ms fade), and reversing with
`StartFade(255, 100)` starts from 188, not from 255 or 120. -/
theorem claim_C3_witness :
    (let st : WinAnim := { active := true, startAlpha := 255, targetAlpha := 120,
                           startTick := 0, durationMs := 100, lastApplied := 188,
                           hTimer := some 0 };
     let s : Sys := { anim := fun h => if h = 1 then some st else none,
                      layered := fun _ => true, alphaW := fun _ => 188,
                      alive := fun _ => true, timers := [(0, 1)], nextHandle := 1 };
     (animRec (StartFade s 1 255 100 50 true) 1).startAlpha = 188) :=
  claim_C3 _ 1 _ 255 100 50 true rfl

/-- Witness for C5: a tick at 50 ms of a 100 ms fade 255→120 on a live,
active record applies exactly the spec's interpolated value. -/
theorem claim_C5_witness :
    (let st : WinAnim := { active := true, startAlpha := 255, targetAlpha := 120,
                           startTick := 0, durationMs := 100, lastApplied := 255,
                           hTimer := some 0 };
     let s : Sys := { anim := fun h => if h = 1 then some st else none,
                      layered := fun _ => true, alphaW := fun _ => 255,
                      alive := fun _ => true, timers := [(0, 1)], nextHandle := 1 };
     (FadeTickCb s 1 50).alphaW 1
        = specTickOpacity st.startAlpha st.targetAlpha st.startTick st.durationMs 50 ∧
     (st.durationMs = 0 → (FadeTickCb s 1 50).alphaW 1 = st.targetAlpha)) :=
  claim_C5 _ 1 _ 50 rfl rfl rfl (by norm_num)

/-- The record invariant of the spec's data model: a record's `hTimer` is
non-null exactly when its `active` flag is set. -/
def HandleInv (s : Sys) : Prop :=
  ∀ h st, s.anim h = some st → (st.hTimer ≠ none ↔ st.active = true)

/-- One engine operation: a `StartFade` (whose `CreateTimerQueueTimer` call
may succeed or fail, since the source ignores its return value), a timer
tick, or a `StopFade`. -/
inductive Step : Sys → Sys → Prop
  | start (s : Sys) (hwnd tgt : Nat) (d : Int) (now : Nat) (ok : Bool) :
      Step s (StartFade s hwnd tgt d now ok)
  | tick (s : Sys) (hwnd now : Nat) : Step s (FadeTickCb s hwnd now)
  | stop (s : Sys) (hwnd : Nat) (f : Bool) : Step s (StopFade s hwnd f)

/-- One engine operation in which any timer allocation succeeds
(`CreateTimerQueueTimer` does not fail). -/
inductive StepOk : Sys → Sys → Prop
  | start (s : Sys) (hwnd tgt : Nat) (d : Int) (now : Nat) :
      StepOk s (StartFade s hwnd tgt d now true)
  | tick (s : Sys) (hwnd now : Nat) : StepOk s (FadeTickCb s hwnd now)
  | stop (s : Sys) (hwnd : Nat) (f : Bool) : StepOk s (StopFade s hwnd f)

/-- States reachable from a start state whose record table is empty, by any
sequence of operations (timer allocations may fail). -/
def Reachable (s : Sys) : Prop :=
  ∃ s0 : Sys, (∀ h, s0.anim h = none) ∧ Relation.ReflTransGen Step s0 s

/-- States reachable from a start state whose record table is empty when
every timer allocation succeeds. -/
def ReachableOk (s : Sys) : Prop :=
  ∃ s0 : Sys, (∀ h, s0.anim h = none) ∧ Relation.ReflTransGen StepOk s0 s

lemma startFade_anim_ne (s : Sys) (hwnd tgt : Nat) (d : Int) (now : Nat)
    (ok : Bool) (h : HWND) (hne : h ≠ hwnd) :
    (StartFade s hwnd tgt d now ok).anim h = s.anim h := by
  simp only [StartFade]
  split_ifs <;> simp [hne]

lemma stopFade_anim_ne (s : Sys) (hwnd : HWND) (f : Bool) (h : HWND)
    (hne : h ≠ hwnd) : (StopFade s hwnd f).anim h = s.anim h := by
  cases hrec : s.anim hwnd with
  | none => simp [StopFade, hrec]
  | some st =>
    simp only [StopFade, hrec]
    split_ifs <;> simp [hne]

lemma fadeTick_anim_ne (s : Sys) (hwnd now : Nat) (h : HWND)
    (hne : h ≠ hwnd) : (FadeTickCb s hwnd now).anim h = s.anim h := by
  by_cases ha : s.alive hwnd = false
  · rw [fadeTick_noop s hwnd now (Or.inl ha)]
  cases hrec : s.anim hwnd with
  | none => rw [fadeTick_noop s hwnd now (Or.inr (Or.inl hrec))]
  | some st =>
    by_cases hact : st.active = false
    · rw [fadeTick_noop s hwnd now (Or.inr (Or.inr ⟨st, hrec, hact⟩))]
    · simp only [FadeTickCb, ha, hrec, hact]
      norm_num
      split_ifs <;> simp [hne]

lemma handleInv_start (s : Sys) (hwnd tgt : Nat) (d : Int) (now : Nat)
    (hs : HandleInv s) : HandleInv (StartFade s hwnd tgt d now true) := by
  intro h r hr
  by_cases hne : h = hwnd
  · subst hne
    simp only [StartFade] at hr
    split_ifs at hr <;> simp at hr <;> simp [← hr]
  · rw [startFade_anim_ne s hwnd tgt d now true h hne] at hr
    exact hs h r hr

lemma handleInv_stop (s : Sys) (hwnd : HWND) (f : Bool)
    (hs : HandleInv s) : HandleInv (StopFade s hwnd f) := by
  intro h r hr
  by_cases hne : h = hwnd
  · subst hne
    cases hrec : s.anim h with
    | none =>
      simp only [StopFade, hrec] at hr
      exact absurd hr (by simp)
    | some st =>
      simp only [StopFade, hrec] at hr
      split_ifs at hr <;> simp at hr <;> simp [← hr]
  · rw [stopFade_anim_ne s hwnd f h hne] at hr
    exact hs h r hr

lemma handleInv_tick (s : Sys) (hwnd now : Nat)
    (hs : HandleInv s) : HandleInv (FadeTickCb s hwnd now) := by
  by_cases ha : s.alive hwnd = false
  · rw [fadeTick_noop s hwnd now (Or.inl ha)]; exact hs
  cases hrec : s.anim hwnd with
  | none => rw [fadeTick_noop s hwnd now (Or.inr (Or.inl hrec))]; exact hs
  | some st =>
    by_cases hact : st.active = false
    · rw [fadeTick_noop s hwnd now (Or.inr (Or.inr ⟨st, hrec, hact⟩))]; exact hs
    · intro h r hr
      by_cases hne : h = hwnd
      · subst hne
        simp only [FadeTickCb, ha, hrec, hact] at hr
        norm_num at hr
        split_ifs at hr
        · simp [hrec] at hr
          rw [← hr]
          simp
        · simp [hrec] at hr
          rw [← hr]
          simp
        · -- mid-fade: the record keeps its timer handle and active flag
          simp [hrec] at hr
          rw [← hr]
          have hiv := hs h st hrec
          simp only [Bool.not_eq_false] at hact
          simp [hact] at hiv
          simp [hact, hiv]
      · rw [fadeTick_anim_ne s hwnd now h hne] at hr
        exact hs h r hr

/-- Claim C6 (amended): in every state reachable from an empty record table
by a sequence of `StartFade`, tick and `StopFade` operations in which every
timer allocation succeeds, each record's `tickHandle` (`hTimer`) is non-null
iff its `active` flag is true. -/
theorem claim_C6 (s : Sys) (h : ReachableOk s) : HandleInv s := by
  obtain ⟨s0, h0, hsteps⟩ := h
  induction hsteps with
  | refl =>
    intro h st hst
    rw [h0 h] at hst
    cases hst
  | tail _ hstep ih =>
    cases hstep with
    | start hwnd tgt d now => exact handleInv_start _ hwnd tgt d now ih
    | tick hwnd now => exact handleInv_tick _ hwnd now ih
    | stop hwnd f => exact handleInv_stop _ hwnd f ih

/-- Counterexample to claim C6 as stated: with the full step relation (any
sequence of `StartFade`, tick, `StopFade`, timer allocation allowed to
fail as the source ignores `CreateTimerQueueTimer`'s return value), a
single failing slow-path `StartFade(1, 120, 100)` from an empty table
reaches a state whose record is `active` with a null `hTimer`, so the
handle/active invariant is false in a reachable state. -/
theorem claim_C6_counterexample :
    (let s0 : Sys := { anim := fun _ => none, layered := fun _ => false,
                       alphaW := fun _ => 255, alive := fun _ => true,
                       timers := [], nextHandle := 0 };
     Reachable (StartFade s0 1 120 100 7 false) ∧
     ¬ HandleInv (StartFade s0 1 120 100 7 false)) := by
  refine ⟨⟨_, fun _ => rfl,
    Relation.ReflTransGen.single (Step.start _ 1 120 100 7 false)⟩, ?_⟩
  intro hinv
  have hc := hinv 1
    { active := true, startAlpha := 255, targetAlpha := 120, startTick := 7,
      durationMs := 100, lastApplied := 255, hTimer := none } (by decide)
  simp at hc

/-- Witness for the amended claim C6: the state after one concrete
successful `StartFade` from an empty table is reachable with successful
allocations and satisfies the handle/active invariant. -/
theorem claim_C6_witness :
    (let s0 : Sys := { anim := fun _ => none, layered := fun _ => false,
                       alphaW := fun _ => 255, alive := fun _ => true,
                       timers := [], nextHandle := 0 };
     HandleInv (StartFade s0 1 180 120 5 true)) :=
  claim_C6 _ ⟨_, fun _ => rfl, Relation.ReflTransGen.single (StepOk.start _ 1 180 120 5)⟩

/-- Full characterization of `StartFade`'s fast path (zero duration or
already at the target). -/
lemma startFade_fast (s : Sys) (hwnd : HWND) (tgt : Nat) (d : Int) (now : Nat)
    (ok : Bool) (hc : max 0 d = 0 ∨ (animRec s hwnd).lastApplied = tgt) :
    (StartFade s hwnd tgt d now ok).anim hwnd
        = some { active := false, startAlpha := (animRec s hwnd).lastApplied,
                 targetAlpha := tgt, startTick := now, durationMs := max 0 d,
                 lastApplied := tgt, hTimer := none } ∧
    (StartFade s hwnd tgt d now ok).timers
        = cancelTimer s.timers (animRec s hwnd).hTimer ∧
    (StartFade s hwnd tgt d now ok).nextHandle = s.nextHandle ∧
    (StartFade s hwnd tgt d now ok).alphaW hwnd = tgt ∧
    (tgt = 255 → (StartFade s hwnd tgt d now ok).layered hwnd = false) := by
  simp only [animRec] at hc
  simp only [StartFade, animRec]
  split_ifs with h255
  · subst h255
    exact ⟨by simp, by simp, by simp, by simp, fun _ => by simp⟩
  · exact ⟨by simp, by simp, by simp, by simp, fun h2 => absurd h2 h255⟩

/-- Full characterization of `StartFade`'s slow path when the recurring
timer is created successfully. -/
lemma startFade_slow (s : Sys) (hwnd : HWND) (tgt : Nat) (d : Int) (now : Nat)
    (hc : ¬(max 0 d = 0 ∨ (animRec s hwnd).lastApplied = tgt)) :
    (StartFade s hwnd tgt d now true).anim hwnd
        = some { active := true, startAlpha := (animRec s hwnd).lastApplied,
                 targetAlpha := tgt, startTick := now, durationMs := max 0 d,
                 lastApplied := (animRec s hwnd).lastApplied,
                 hTimer := some s.nextHandle } ∧
    (StartFade s hwnd tgt d now true).timers
        = (s.nextHandle, hwnd) :: cancelTimer s.timers (animRec s hwnd).hTimer ∧
    (StartFade s hwnd tgt d now true).nextHandle = s.nextHandle + 1 ∧
    (StartFade s hwnd tgt d now true).alphaW = s.alphaW ∧
    (StartFade s hwnd tgt d now true).layered hwnd = true := by
  simp only [animRec] at hc
  simp only [StartFade, animRec]
  rw [if_neg hc]
  exact ⟨by simp, by simp, by simp, by simp, by simp⟩

/-- Characterization of `StartFade`'s slow path when `CreateTimerQueueTimer`
fails: the record stays active with a null handle, no timer is added, and
no opacity is written. -/
lemma startFade_slow_fail (s : Sys) (hwnd : HWND) (tgt : Nat) (d : Int)
    (now : Nat) (hc : ¬(max 0 d = 0 ∨ (animRec s hwnd).lastApplied = tgt)) :
    (StartFade s hwnd tgt d now false).anim hwnd
        = some { active := true, startAlpha := (animRec s hwnd).lastApplied,
                 targetAlpha := tgt, startTick := now, durationMs := max 0 d,
                 lastApplied := (animRec s hwnd).lastApplied, hTimer := none } ∧
    (StartFade s hwnd tgt d now false).timers
        = cancelTimer s.timers (animRec s hwnd).hTimer ∧
    (StartFade s hwnd tgt d now false).nextHandle = s.nextHandle ∧
    (StartFade s hwnd tgt d now false).alphaW = s.alphaW := by
  simp only [animRec] at hc
  simp only [StartFade, animRec]
  rw [if_neg hc]
  exact ⟨by simp, by simp, by simp, by simp⟩

lemma startFade_alive (s : Sys) (hwnd : HWND) (tgt : Nat) (d : Int)
    (now : Nat) (ok : Bool) :
    (StartFade s hwnd tgt d now ok).alive = s.alive := by
  simp only [StartFade]
  split_ifs <;> rfl

/-- Claim C7 (amended): when the recurring tick cannot be allocated on the
slow path, `StartFade` does NOT fall back to an instantaneous opacity
change: it writes no opacity, schedules nothing, and leaves the record
active with a null timer handle, so the window keeps its previous alpha. -/
theorem claim_C7 (s : Sys) (hwnd : HWND) (tgt : Nat) (d : Int) (now : Nat)
    (hc : ¬(max 0 d = 0 ∨ (animRec s hwnd).lastApplied = tgt)) :
    (StartFade s hwnd tgt d now false).alphaW hwnd = s.alphaW hwnd ∧
    (StartFade s hwnd tgt d now false).timers
        = cancelTimer s.timers (animRec s hwnd).hTimer ∧
    (animRec (StartFade s hwnd tgt d now false) hwnd).active = true ∧
    (animRec (StartFade s hwnd tgt d now false) hwnd).hTimer = none := by
  obtain ⟨hrec, htimers, -, halpha⟩ := startFade_slow_fail s hwnd tgt d now hc
  refine ⟨by rw [halpha], htimers, ?_, ?_⟩ <;> simp [animRec, hrec]

/-- Counterexample to claim C7 as stated: with `lastApplied = 120` and the
window visually at alpha 120, a failing `StartFade(hwnd, 255, 100)` leaves
the window's alpha at 120 (not 255), schedules no tick, and leaves the
record active with no handle — the target opacity is not applied. -/
theorem claim_C7_counterexample :
    (let s : Sys :=
      { anim := fun h => if h = 1
          then some { active := false, startAlpha := 255, targetAlpha := 120,
                      startTick := 0, durationMs := 100, lastApplied := 120,
                      hTimer := none }
          else none,
        layered := fun _ => true, alphaW := fun _ => 120,
        alive := fun _ => true, timers := [], nextHandle := 0 };
     (StartFade s 1 255 100 7 false).alphaW 1 = 120 ∧
     ¬(StartFade s 1 255 100 7 false).alphaW 1 = 255 ∧
     (StartFade s 1 255 100 7 false).timers = [] ∧
     (animRec (StartFade s 1 255 100 7 false) 1).active = true ∧
     (animRec (StartFade s 1 255 100 7 false) 1).hTimer = none) := by
  refine ⟨?_, ?_, ?_, ?_, ?_⟩ <;> decide

/-- Witness for the amended claim C7 at the same concrete input. -/
theorem claim_C7_witness :
    (let s : Sys :=
      { anim := fun h => if h = 1
          then some { active := false, startAlpha := 255, targetAlpha := 120,
                      startTick := 0, durationMs := 100, lastApplied := 120,
                      hTimer := none }
          else none,
        layered := fun _ => true, alphaW := fun _ => 120,
        alive := fun _ => true, timers := [], nextHandle := 0 };
     (StartFade s 1 255 100 7 false).alphaW 1 = s.alphaW 1 ∧
     (StartFade s 1 255 100 7 false).timers
        = cancelTimer s.timers (animRec s 1).hTimer ∧
     (animRec (StartFade s 1 255 100 7 false) 1).active = true ∧
     (animRec (StartFade s 1 255 100 7 false) 1).hTimer = none) :=
  claim_C7 _ 1 255 100 7 (by decide)

/-- The live timers bound to one window. -/
def timersFor (s : Sys) (h : HWND) : List (Nat × HWND) :=
  s.timers.filter (fun p => decide (p.2 = h))

/-- Scheduler/table correspondence invariant: a timer `(n, h)` is live iff
window `h`'s record holds handle `n`; every live handle is below the fresh
counter; no two live timers share a handle. -/
def TickInv (s : Sys) : Prop :=
  (∀ p : Nat × HWND, p ∈ s.timers ↔ (animRec s p.2).hTimer = some p.1) ∧
  (∀ p ∈ s.timers, p.1 < s.nextHandle) ∧
  (s.timers.map Prod.fst).Nodup

lemma mem_cancelTimer {ts : List (Nat × HWND)} {ho : Option Nat}
    {p : Nat × HWND} : p ∈ cancelTimer ts ho ↔ p ∈ ts ∧ ¬ho = some p.1 := by
  cases ho with
  | none => simp [cancelTimer]
  | some n =>
    simp only [cancelTimer, List.mem_filter, decide_eq_true_eq,
      Option.some.injEq]
    constructor
    · rintro ⟨h1, h2⟩
      exact ⟨h1, fun he => h2 he.symm⟩
    · rintro ⟨h1, h2⟩
      exact ⟨h1, fun he => h2 he.symm⟩

lemma nodup_cancelTimer (ts : List (Nat × HWND)) (ho : Option Nat)
    (h : (ts.map Prod.fst).Nodup) :
    ((cancelTimer ts ho).map Prod.fst).Nodup := by
  cases ho with
  | none => exact h
  | some n => exact List.Nodup.sublist ((List.filter_sublist _).map Prod.fst) h

/-- Under the invariant, cancelling the handle recorded for `hwnd` keeps
exactly the timers of the other windows. -/
lemma mem_cancel_of_inv (s : Sys) (hwnd : HWND) (hs : TickInv s)
    (p : Nat × HWND) :
    p ∈ cancelTimer s.timers (animRec s hwnd).hTimer
      ↔ (¬p.2 = hwnd ∧ (animRec s p.2).hTimer = some p.1) := by
  obtain ⟨hmem, hfresh, hnodup⟩ := hs
  rw [mem_cancelTimer]
  constructor
  · rintro ⟨hp, hno⟩
    have h2 := (hmem p).mp hp
    refine ⟨fun he => ?_, h2⟩
    rw [he] at h2
    exact hno h2
  · rintro ⟨hne, h2⟩
    refine ⟨(hmem p).mpr h2, fun he => ?_⟩
    have hq : (p.1, hwnd) ∈ s.timers := (hmem (p.1, hwnd)).mpr he
    have heq := List.inj_on_of_nodup_map hnodup hq ((hmem p).mpr h2) rfl
    exact hne (congrArg Prod.snd heq).symm

lemma length_le_one_of_const_map {α β : Type} {l : List α} {f : α → β}
    {c : β} (hn : (l.map f).Nodup) (hc : ∀ p ∈ l, f p = c) :
    l.length ≤ 1 := by
  cases l with
  | nil => simp
  | cons a t =>
    cases t with
    | nil => simp
    | cons b u =>
      exfalso
      rw [List.map_cons, List.nodup_cons] at hn
      refine hn.1 ?_
      rw [hc a (by simp), ← hc b (by simp)]
      exact List.mem_map_of_mem f (by simp)

/-- Under the invariant, at most one tick is scheduled per window. -/
lemma timersFor_len_le_one (s : Sys) (h : HWND) (hs : TickInv s) :
    (timersFor s h).length ≤ 1 := by
  obtain ⟨hmem, hfresh, hnodup⟩ := hs
  have hsub : (timersFor s h).map Prod.fst |>.Nodup :=
    List.Nodup.sublist ((List.filter_sublist _).map Prod.fst) hnodup
  cases hd : (animRec s h).hTimer with
  | none =>
    have hempty : timersFor s h = [] := by
      rw [List.eq_nil_iff_forall_not_mem]
      intro p hp
      obtain ⟨hp1, hp2⟩ := List.mem_filter.mp hp
      have h2 := (hmem p).mp hp1
      rw [show p.2 = h from by simpa using hp2, hd] at h2
      cases h2
    simp [hempty]
  | some n =>
    refine length_le_one_of_const_map (c := n) hsub ?_
    intro p hp
    obtain ⟨hp1, hp2⟩ := List.mem_filter.mp hp
    have h2 := (hmem p).mp hp1
    rw [show p.2 = h from by simpa using hp2, hd] at h2
    exact (Option.some.injEq _ _ ▸ h2).symm

/-- A successful `StartFade` preserves the scheduler/table correspondence:
it always cancels the window's previous timer before (possibly) scheduling
exactly one fresh one. -/
lemma tickInv_start (s : Sys) (hwnd tgt : Nat) (d : Int) (now : Nat)
    (hs : TickInv s) : TickInv (StartFade s hwnd tgt d now true) := by
  by_cases hc : max 0 d = 0 ∨ (animRec s hwnd).lastApplied = tgt
  · obtain ⟨hrec, htimers, hnext, -, -⟩ := startFade_fast s hwnd tgt d now true hc
    refine ⟨?_, ?_, ?_⟩
    · intro p
      obtain ⟨p1, p2⟩ := p
      rw [htimers, mem_cancel_of_inv s hwnd hs _]
      by_cases hph : p2 = hwnd
      · subst hph
        simp [animRec, hrec]
      · have hanim := startFade_anim_ne s hwnd tgt d now true p2 hph
        simp only [animRec, hanim]
        simp [hph]
    · intro p hp
      rw [hnext]
      rw [htimers, mem_cancelTimer] at hp
      exact hs.2.1 p hp.1
    · rw [htimers]
      exact nodup_cancelTimer _ _ hs.2.2
  · obtain ⟨hrec, htimers, hnext, -, -⟩ := startFade_slow s hwnd tgt d now hc
    obtain ⟨hmem, hfresh, hnodup⟩ := hs
    refine ⟨?_, ?_, ?_⟩
    · intro p
      obtain ⟨p1, p2⟩ := p
      rw [htimers, List.mem_cons, mem_cancel_of_inv s hwnd ⟨hmem, hfresh, hnodup⟩ _]
      by_cases hph : p2 = hwnd
      · subst hph
        simp only [animRec, hrec, Option.getD_some, Option.some.injEq]
        constructor
        · rintro (he | ⟨hne, -⟩)
          · simpa using (congrArg Prod.fst he).symm
          · simp at hne
        · intro he
          rw [he]
          simp
      · have hanim := startFade_anim_ne s hwnd tgt d now true p2 hph
        simp only [animRec, hanim]
        constructor
        · rintro (he | ⟨-, h2⟩)
          · exact absurd (congrArg Prod.snd he) hph
          · exact h2
        · intro h2
          exact Or.inr ⟨hph, h2⟩
    · intro p hp
      rw [hnext]
      rw [htimers, List.mem_cons] at hp
      rcases hp with he | hp
      · rw [he]
        omega
      · have := hfresh p (mem_cancelTimer.mp hp).1
        omega
    · rw [htimers, List.map_cons]
      refine List.nodup_cons.mpr ⟨?_, nodup_cancelTimer _ _ hnodup⟩
      intro hmem'
      obtain ⟨q, hq, hq1⟩ := List.mem_map.mp hmem'
      have := hfresh q (mem_cancelTimer.mp hq).1
      omega

lemma tickFraction_one (a : Nat) (dm : Int) (now : Nat) (hdm : 0 < dm)
    (h : dm.toNat ≤ now - a) : tickFraction a dm now = 1 := by
  unfold tickFraction
  rw [if_pos hdm]
  refine min_eq_left ?_
  rw [one_le_div (by exact_mod_cast hdm)]
  have h2 : ((dm.toNat : ℕ) : ℚ) ≤ ((now - a : ℕ) : ℚ) := by exact_mod_cast h
  have h3 : ((dm.toNat : ℕ) : ℚ) = (dm : ℚ) := by
    rw [show ((dm.toNat : ℕ) : ℚ) = ((dm.toNat : ℤ) : ℚ) from by push_cast; ring]
    rw [Int.toNat_of_nonneg hdm.le]
  rw [← h3]
  exact h2

/-- A completed fraction makes the tick write exactly the target byte. -/
lemma tickAlpha_done (st : WinAnim) (now : Nat)
    (h1 : tickFraction st.startTick st.durationMs now = 1)
    (htgt : st.targetAlpha ≤ 255) : tickAlpha st now = st.targetAlpha := by
  have hshape : tickAlpha st now
      = ClampByte (cTrunc ((st.targetAlpha : ℚ) + 1/2)) := by
    show ClampByte (cTrunc ((1 - tickFraction st.startTick st.durationMs now)
        * (st.startAlpha : ℚ)
        + tickFraction st.startTick st.durationMs now * (st.targetAlpha : ℚ)
        + 1/2)) = _
    rw [h1]
    norm_num
  rw [hshape]
  rw [show cTrunc ((st.targetAlpha : ℚ) + 1/2) = ⌊(st.targetAlpha : ℚ) + 1/2⌋
    from if_pos (by positivity)]
  rw [show ⌊(st.targetAlpha : ℚ) + 1/2⌋ = (st.targetAlpha : Int) from by
    rw [Int.floor_eq_iff]
    constructor
    · push_cast
      linarith
    · push_cast
      linarith]
  rw [ClampByte_eq_clamp]
  split_ifs <;> omega

/-- After `StartFade(hwnd, 255, d)` succeeds, a tick at or after the
fade's deadline leaves the window at alpha 255 (fast path: already there;
slow path: the completing tick applies the target). -/
lemma startFade255_tick_alpha (s : Sys) (hwnd : HWND) (d : Int) (now m : Nat)
    (halive : s.alive hwnd = true) (hm : (max 0 d).toNat ≤ m - now) :
    (FadeTickCb (StartFade s hwnd 255 d now true) hwnd m).alphaW hwnd = 255 := by
  by_cases hc : max 0 d = 0 ∨ (animRec s hwnd).lastApplied = 255
  · obtain ⟨hrec, -, -, halpha, -⟩ := startFade_fast s hwnd 255 d now true hc
    rw [fadeTick_noop _ _ _ (Or.inr (Or.inr ⟨_, hrec, rfl⟩))]
    exact halpha
  · obtain ⟨hrec, -, -, -, -⟩ := startFade_slow s hwnd 255 d now hc
    have halive' : (StartFade s hwnd 255 d now true).alive hwnd = true := by
      rw [startFade_alive]
      exact halive
    have hdm : 0 < max 0 d := by
      have hne : max 0 d ≠ 0 := fun hh => hc (Or.inl hh)
      exact lt_of_le_of_ne (le_max_left 0 d) (Ne.symm hne)
    have happ := fadeTick_alphaW _ hwnd _ m halive' hrec rfl
    rw [happ]
    refine (tickAlpha_done _ m ?_ (le_refl 255)).trans rfl
    exact tickFraction_one now (max 0 d) m hdm hm

/-- Claim C8: issuing `StartFade(hwnd, 255, d)` twice in immediate
succession is idempotent — the single and the double issue both end at
terminal opacity 255 once the (or a ghost) tick runs at the deadline, and
after each call at most one tick is scheduled for the window (the second
call cancels the first call's tick before scheduling its own). -/
theorem claim_C8 (s : Sys) (hwnd : HWND) (d d' : Int) (now now' m m' : Nat)
    (hinv : TickInv s) (halive : s.alive hwnd = true)
    (hm : (max 0 d).toNat ≤ m - now) (hm' : (max 0 d').toNat ≤ m' - now') :
    (FadeTickCb (StartFade s hwnd 255 d now true) hwnd m).alphaW hwnd = 255 ∧
    (FadeTickCb (StartFade (StartFade s hwnd 255 d now true) hwnd 255 d' now' true)
        hwnd m').alphaW hwnd = 255 ∧
    (timersFor (StartFade s hwnd 255 d now true) hwnd).length ≤ 1 ∧
    (timersFor (StartFade (StartFade s hwnd 255 d now true) hwnd 255 d' now' true)
        hwnd).length ≤ 1 := by
  have hinv1 := tickInv_start s hwnd 255 d now hinv
  have hinv2 := tickInv_start _ hwnd 255 d' now' hinv1
  have halive1 : (StartFade s hwnd 255 d now true).alive hwnd = true := by
    rw [startFade_alive]
    exact halive
  exact ⟨startFade255_tick_alpha s hwnd d now m halive hm,
         startFade255_tick_alpha _ hwnd d' now' m' halive1 hm',
         timersFor_len_le_one _ hwnd hinv1,
         timersFor_len_le_one _ hwnd hinv2⟩

/-- Witness for C8 at a concrete state: two immediate `StartFade(1, 255, 120)`
calls on a fresh live window. -/
theorem claim_C8_witness :
    (let s0 : Sys := { anim := fun _ => none, layered := fun _ => false,
                       alphaW := fun _ => 255, alive := fun _ => true,
                       timers := [], nextHandle := 0 };
     (FadeTickCb (StartFade s0 1 255 120 0 true) 1 200).alphaW 1 = 255 ∧
     (FadeTickCb (StartFade (StartFade s0 1 255 120 0 true) 1 255 120 300 true)
        1 500).alphaW 1 = 255 ∧
     (timersFor (StartFade s0 1 255 120 0 true) 1).length ≤ 1 ∧
     (timersFor (StartFade (StartFade s0 1 255 120 0 true) 1 255 120 300 true)
        1).length ≤ 1) :=
  claim_C8 _ 1 120 120 0 300 200 500
    ⟨fun p => by simp [animRec], fun p hp => by simp at hp, by simp⟩
    rfl (by decide) (by decide)

end TWM
